import Mathlib

/-
Verification of the feature-cache and light-curve ingestion code of the
ML-Cadence repository (src/features.py and src/ml_pipeline/data.py),
via a shallow embedding in Lean 4.

Python keyword-argument dictionaries are modelled as insertion-ordered
association lists `List (String × PyVal)`; `str(dict)` is modelled by
`kwargsRepr` (faithful for keys and values that contain no characters
needing escape in a Python repr, which covers every identifier-like key
the code uses); Python's builtin, per-process-salted `hash` on strings
is modelled as an explicit function parameter `h : String → Int`, since
it is a fixed but unknown function within one process run.
-/

namespace MLC

/-- A Python value as it can appear among the keyword arguments of
`extract_features` in src/features.py: ints, strings, booleans, None. -/
inductive PyVal where
  | int (n : Int)
  | str (s : String)
  | bool (b : Bool)
  | none
deriving DecidableEq, Repr

/-- A single-quote character, built by code point to sidestep lexical
restrictions on apostrophes in this development. -/
def sq : String := String.singleton (Char.ofNat 39)

/-- Python `repr` of a `PyVal`, as used by `str(dict)` for the values of
a dictionary: ints in decimal, strings in single quotes, `True`/`False`,
`None`. -/
def pyReprVal : PyVal → String
  | .int n => toString n
  | .str s => sq ++ s ++ sq
  | .bool b => if b then "True" else "False"
  | .none => "None"

/-- Join string parts with the separator used by Python `str(dict)`. -/
def joinParts : List String → String
  | [] => ""
  | [s] => s
  | s :: s2 :: rest => s ++ ", " ++ joinParts (s2 :: rest)

/-- Python `str(d)` for a dict `d` given as an insertion-ordered
association list: the entries in insertion order, each rendered as
`'key': repr(value)`, joined by `, ` inside braces. -/
def kwargsRepr (kwargs : List (String × PyVal)) : String :=
  "\x7b" ++ joinParts (kwargs.map (fun kv => sq ++ kv.1 ++ sq ++ ": " ++ pyReprVal kv.2)) ++ "\x7d"

/-- The tuple `ignore_kwargs` of src/features.py line 78: keyword
arguments excluded from the cache fingerprint. -/
def ignore_kwargs : List String :=
  ["save_chains", "chain_directory", "nprocesses", "save_output",
   "convert_to_binary", "output_root"]

/-- The dict comprehension of src/features.py line 87: keep the keyword
arguments whose key is not in `ignore_kwargs`, preserving insertion
order (as a Python dict comprehension over `kwargs.items()` does). -/
def keptKwargs (kwargs : List (String × PyVal)) : List (String × PyVal) :=
  kwargs.filter (fun kv => decide (kv.1 ∉ ignore_kwargs))

/-- src/features.py lines 66-88 (`get_cache_prefix`): the cache file
name prefix `f'{data.survey_name}_{method}_{hash(str(kept_kwargs))}'`.
The process's builtin string hash is the explicit parameter `h`. -/
def get_cache_prefix (h : String → Int) (survey_name method : String)
    (kwargs : List (String × PyVal)) : String :=
  survey_name ++ "_" ++ method ++ "_" ++ toString (h (kwargsRepr (keptKwargs kwargs)))

/-- A concrete, position-sensitive string-to-integer code, used in
counterexamples as one possible value of the process's string hash
function (any injective-enough function exhibits the behaviour). -/
def strCode (s : String) : Int :=
  s.data.foldl (fun a c => a * 4099 + (c.toNat : Int)) 7

/-- First value in an association list whose key equals `k` (models
both Python dict lookup and reading a file from a path-keyed store). -/
def findEntry {β : Type} (k : String) : List (String × β) → Option β
  | [] => Option.none
  | (k2, v) :: rest => if k2 = k then some v else findEntry k rest

/-- Python `d.setdefault(k, v)`: leave `d` unchanged if `k` is present,
otherwise append the binding `(k, v)` (insertion at the end, as a
Python dict does for a new key). -/
def setdefault (d : List (String × PyVal)) (k : String) (v : PyVal) :
    List (String × PyVal) :=
  if (findEntry k d).isSome then d else d ++ [(k, v)]

/-- Python `d[k] = v` on an insertion-ordered dict: overwrite in place
if `k` is present, else append. -/
def dictSet (d : List (String × PyVal)) (k : String) (v : PyVal) :
    List (String × PyVal) :=
  if (findEntry k d).isSome then
    d.map (fun kv => if kv.1 = k then (k, v) else kv)
  else d ++ [(k, v)]

/-- Python `d.update(u)`: set each binding of `u` into `d`, in order. -/
def dictUpdate (d u : List (String × PyVal)) : List (String × PyVal) :=
  u.foldl (fun acc kv => dictSet acc kv.1 kv.2) d

/-- An astropy `Table` as the cache code observes it: rows of some row
type `R`, plus table-level metadata (`Table.meta`), a Python dict. -/
structure Table (R : Type) where
  rows : List R
  meta : List (String × PyVal)
deriving DecidableEq

/-- The feature extractor object passed to `extract_features`: its class
name (`type(feature_class).__name__`), its `extract_features` bound
method (modelled as a pure function of the keyword arguments, the
dataset being fixed), and the three PCA attributes that the wavelet
family carries (of some array type `A`). -/
structure FeatureClass (R A : Type) where
  name : String
  extract : List (String × PyVal) → Table R
  PCA_eigenvals : A
  PCA_eigenvectors : A
  PCA_mean : A

/-- The observable filesystem state: ecsv tables keyed by path (written
by `Table.write`, read by `Table.read`) and numeric arrays keyed by
path (written by `np.savetxt`, read by `np.loadtxt`). -/
structure FS (R A : Type) where
  tables : List (String × Table R)
  arrays : List (String × A)
deriving DecidableEq

/-- src/features.py lines 113-115: for every class except
`ParametricFeatures`, `kwargs.setdefault('save_output', False)`. -/
def applySaveOutputDefault (method : String) (kwargs : List (String × PyVal)) :
    List (String × PyVal) :=
  if method ≠ "ParametricFeatures" then
    setdefault kwargs "save_output" (PyVal.bool false)
  else kwargs

/-- Python truthiness of the `cache_dir` / `file_prefix` arguments as
optional strings: `None` and the empty string are falsy. -/
def truthyStr : Option String → Bool
  | Option.none => false
  | some s => s ≠ ""

/-- src/features.py lines 124-125: the effective cached-file name
stem is the caller's `file_prefix` when truthy, otherwise the result
of `get_cache_prefix` (called with the post-`setdefault` kwargs). -/
def effectivePre (h : String → Int) (survey_name method : String)
    ( filePre : Option String) (kwargs : List (String × PyVal)) : String :=
  match filePre with
  | some p => if p = "" then get_cache_prefix h survey_name method kwargs else p
  | Option.none => get_cache_prefix h survey_name method kwargs

/-- src/features.py line 128: `features_dir / f'{file_prefix}_features.ecsv'`. -/
def featPath (cd pre : String) : String := cd ++ "/features/" ++ pre ++ "_features.ecsv"

/-- src/features.py line 129. -/
def eigenvalPath (cd pre : String) : String := cd ++ "/features/" ++ pre ++ "_eigenvals.ecsv"

/-- src/features.py line 130. -/
def eigenvecPath (cd pre : String) : String := cd ++ "/features/" ++ pre ++ "_eigenvectors.ecsv"

/-- src/features.py line 131. -/
def meanPath (cd pre : String) : String := cd ++ "/features/" ++ pre ++ "_mean.ecsv"

/-- The result of one `extract_features` call: the returned table, the
(possibly attribute-mutated) feature-class object, the filesystem
after the call, and whether `feature_class.extract_features` was
invoked during the call. -/
structure ExtractResult (R A : Type) where
  features : Table R
  fclass : FeatureClass R A
  fs : FS R A
  invoked : Bool

/-- src/features.py lines 92-155 (`extract_features`): apply the
`save_output` default, then either run the extractor directly (falsy
`cache_dir`), or probe the cache under the effective prefix and take
the HIT path (read table; for `WaveletFeatures` also load the three
PCA arrays onto the extractor object) or the MISS path (run the
extractor, merge the kwargs into the table metadata, write the table;
for `WaveletFeatures` also write the three PCA arrays). `Option.none`
models an uncaught Python exception (a missing auxiliary file on a
HIT). -/
def extract_features {R A : Type} (h : String → Int) (survey_name : String)
    (fclass : FeatureClass R A) (cacheDir : Option String)
    ( filePre : Option String) (kwargs : List (String × PyVal))
    (fs : FS R A) : Option (ExtractResult R A) :=
  let method := fclass.name
  let kwargs1 := applySaveOutputDefault method kwargs
  if truthyStr cacheDir = false then
    some ⟨fclass.extract kwargs1, fclass, fs, true⟩
  else
    let cd := cacheDir.getD ""
    let pre := effectivePre h survey_name method filePre kwargs1
    match findEntry (featPath cd pre) fs.tables with
    | some t =>
      if method = "WaveletFeatures" then
        match findEntry (eigenvalPath cd pre) fs.arrays,
              findEntry (eigenvecPath cd pre) fs.arrays,
              findEntry (meanPath cd pre) fs.arrays with
        | some ev, some evec, some m =>
          some ⟨t, ⟨fclass.name, fclass.extract, ev, evec, m⟩, fs, false⟩
        | _, _, _ => Option.none
      else
        some ⟨t, fclass, fs, false⟩
    | Option.none =>
      let f0 := fclass.extract kwargs1
      let f1 : Table R := ⟨f0.rows, dictUpdate f0.meta kwargs1⟩
      let tables1 := (featPath cd pre, f1) :: fs.tables
      let arrays1 :=
        if method = "WaveletFeatures" then
          (meanPath cd pre, fclass.PCA_mean) ::
          (eigenvecPath cd pre, fclass.PCA_eigenvectors) ::
          (eigenvalPath cd pre, fclass.PCA_eigenvals) :: fs.arrays
        else fs.arrays
      some ⟨f1, fclass, ⟨tables1, arrays1⟩, true⟩

/-- The table returned (and written) by the MISS arm of
`extract_features`: the extractor's output with the effective keyword
arguments merged into its metadata. A proof-layer restatement of the
MISS arm, used to characterise `extract_features`. -/
def missTable {R : Type} {A : Type} (fclass : FeatureClass R A)
    (kwargs : List (String × PyVal)) : Table R :=
  ⟨(fclass.extract (applySaveOutputDefault fclass.name kwargs)).rows,
   dictUpdate (fclass.extract (applySaveOutputDefault fclass.name kwargs)).meta
     (applySaveOutputDefault fclass.name kwargs)⟩

/-- The filesystem after the MISS arm of `extract_features`: the table
written under the features path, and for the wavelet family the three
PCA arrays written alongside. A proof-layer restatement of the MISS
arm, used to characterise `extract_features`. -/
def missFS {R A : Type} (h : String → Int) (sn : String) (fclass : FeatureClass R A)
    (cd : String) ( filePre : Option String) (kwargs : List (String × PyVal))
    (fs : FS R A) : FS R A :=
  let pre := effectivePre h sn fclass.name filePre (applySaveOutputDefault fclass.name kwargs)
  ⟨(featPath cd pre, missTable fclass kwargs) :: fs.tables,
   if fclass.name = "WaveletFeatures" then
     (meanPath cd pre, fclass.PCA_mean) ::
     (eigenvecPath cd pre, fclass.PCA_eigenvectors) ::
     (eigenvalPath cd pre, fclass.PCA_eigenvals) :: fs.arrays
   else fs.arrays⟩

/-- A concrete wavelet-family extractor over `Nat` rows and `Int`
arrays, used to exercise `extract_features` on explicit inputs: it
returns a fixed two-row table whose metadata records the keyword
arguments it was invoked with. -/
def wavDemo : FeatureClass Nat Int :=
  ⟨"WaveletFeatures", fun kw => ⟨[1, 2], kw⟩, 0, 0, 0⟩

/-- Normalisation of one bound of a Python/numpy basic slice `l[a:b]`
over a sequence of length `n`: a negative bound counts from the end
(clamped below at 0), a non-negative bound is clamped above at `n`. -/
def pyNormIdx (n : Nat) (i : Int) : Nat :=
  if i < 0 then (max 0 ((n : Int) + i)).toNat else min i.toNat n

/-- Python/numpy basic slicing `l[a:b]`: total, never raises, returns
the elements at normalised positions `a' ≤ k < b'`. -/
def pySlice {R : Type} (l : List R) (a b : Int) : List R :=
  (l.take (pyNormIdx l.length b)).drop (pyNormIdx l.length a)

/-- src/ml_pipeline/data.py lines 124-126: the per-object slice
`phot_data[record['PTROBS_MIN'] - 1 : record['PTROBS_MAX']]` of the
flat photometry array, for the header's 1-based inclusive range. -/
def recordSlice {R : Type} (phot : List R) (ptrobsMin ptrobsMax : Int) : List R :=
  pySlice phot (ptrobsMin - 1) ptrobsMax

/-- Splitting a character list on a non-empty separator, Python
`str.split(sep)` style, with explicit fuel (one unit per examined
character, so `fuel = length` always suffices). -/
def splitCharsAux (sep : List Char) : Nat → List Char → List Char → List (List Char)
  | _, [], acc => [acc.reverse]
  | 0, l, acc => [acc.reverse ++ l]
  | fuel + 1, c :: rest, acc =>
    if sep.isPrefixOf (c :: rest) then
      acc.reverse :: splitCharsAux sep fuel ((c :: rest).drop sep.length) []
    else
      splitCharsAux sep fuel rest (c :: acc)

/-- Python `s.split(sep)` for a non-empty separator `sep`: the chunks
of `s` between non-overlapping, left-to-right occurrences of `sep`
(empty chunks included). -/
def pySplit (sep s : String) : List String :=
  (splitCharsAux sep.data s.data.length s.data []).map String.mk

/-- Decimal value of a digit run (`none` as soon as a non-digit
appears). -/
def digitsValAux : List Char → Nat → Option Nat
  | [], acc => some acc
  | c :: r, acc =>
    if c.isDigit then digitsValAux r (acc * 10 + (c.toNat - 48)) else Option.none

/-- Python `int(s)` on a string with no surrounding whitespace: an
optional sign followed by at least one decimal digit; anything else
raises `ValueError` (modelled as `none`). -/
def pyInt? (s : String) : Option Int :=
  match s.data with
  | [] => Option.none
  | '-' :: r =>
    if r = [] then Option.none else (digitsValAux r 0).map (fun n => -(n : Int))
  | '+' :: r =>
    if r = [] then Option.none else (digitsValAux r 0).map (fun n => (n : Int))
  | l => (digitsValAux l 0).map (fun n => (n : Int))

/-- src/ml_pipeline/data.py line 121:
`int(header_path.split('MODEL')[-1].split('/')[0])`, with `none`
modelling the `ValueError` that `int()` raises on a non-numeric
segment. -/
def modelFromPath (p : String) : Option Int :=
  pyInt? ((pySplit "/" ((pySplit "MODEL" p).getLastD "")).headD "")

/-- Indexing an astropy header record (an ordered list of named
columns) by an integer, as `record[model]` does: a non-negative index
selects the column at that position, a negative index counts from the
end; out of range raises (modelled as `none`). -/
def pyGetItem (record : List (String × PyVal)) (i : Int) : Option PyVal :=
  let j := if i < 0 then (record.length : Int) + i else i
  if 0 ≤ j then (record.get? j.toNat).map Prod.snd else Option.none

/-- src/ml_pipeline/data.py lines 121 and 134: the value stored as the
object's `'type'` metadata, namely `record[model]` where `model` is
the integer parsed from the path segment following `'MODEL'`. -/
def typeLabel (headerPath : String) (record : List (String × PyVal)) : Option PyVal :=
  match modelFromPath headerPath with
  | some m => pyGetItem record m
  | Option.none => Option.none

/-- The label read as the claim words it: from the header column whose
NAME is the integer parsed from the path (name-based lookup, stated
here only to compare against `typeLabel`, which embeds the source). -/
def typeLabelByName (headerPath : String) (record : List (String × PyVal)) : Option PyVal :=
  match modelFromPath headerPath with
  | some m => findEntry (toString m) record
  | Option.none => Option.none

theorem string_append_left_cancel (s a b : String) (h : s ++ a = s ++ b) : a = b := by
  have h2 : (s ++ a).data = (s ++ b).data := by rw [h]
  rw [String.data_append, String.data_append] at h2
  exact String.ext (List.append_cancel_left h2)

theorem findEntry_append_single {β : Type} (d : List (String × β)) (k : String) (v : β)
    (h : findEntry k d = Option.none) : findEntry k (d ++ [(k, v)]) = some v := by
  induction d with
  | nil => simp [findEntry]
  | cons kv rest ih =>
    obtain ⟨k2, v2⟩ := kv
    rw [List.cons_append]
    unfold findEntry at h ⊢
    by_cases hk : k2 = k
    · rw [if_pos hk] at h; exact absurd h (by simp)
    · rw [if_neg hk] at h ⊢
      exact ih h

/-- C1: the string representation that `get_cache_prefix` feeds to the
hash is `str` of an insertion-ordered dict, so two keyword-argument
mappings equal as maps but inserted in different orders are hashed
from different strings, and (for any hash function separating those
strings, such as the concrete `strCode`) yield different fingerprints
— the claimed order-independence fails. -/
theorem C1_hash_input_order_dependent :
    kwargsRepr (keptKwargs [("a", PyVal.int 1), ("b", PyVal.int 2)]) ≠
      kwargsRepr (keptKwargs [("b", PyVal.int 2), ("a", PyVal.int 1)]) ∧
    get_cache_prefix strCode "lsst" "wavelets" [("a", PyVal.int 1), ("b", PyVal.int 2)] ≠
      get_cache_prefix strCode "lsst" "wavelets" [("b", PyVal.int 2), ("a", PyVal.int 1)] := by
  exact ⟨by decide, by decide⟩

/-- C2: the fingerprint returned by `get_cache_prefix` depends on the
process's builtin string-hash function (here exhibited with two
possible hash functions): since Python salts `hash` on `str` with a
per-process seed, the digest is not stable across process runs. -/
theorem C2_fingerprint_depends_on_process_hash :
    get_cache_prefix (fun _ => 0) "lsst" "wavelets" [("a", PyVal.int 1)] ≠
      get_cache_prefix (fun _ => 1) "lsst" "wavelets" [("a", PyVal.int 1)] := by
  decide

/-- C5 counterexample: for the out-of-range header range [2, 5] over a
photometry array of length 3, the slicer silently returns the
truncated two-element slice instead of failing with an
IndexError-class condition. -/
theorem C5_truncated_slice_counterexample :
    recordSlice ([10, 20, 30] : List Nat) 2 5 = [20, 30] ∧
    (recordSlice ([10, 20, 30] : List Nat) 2 5).length = 2 := by
  exact ⟨by decide, by decide⟩

/-- C7 counterexample: on a MISS with an explicit `save_output=True`
keyword argument and a non-parametric class, the extraction routine
(here one that records the keyword arguments it receives into the
table rows) is invoked with `save_output` still `True` — the flag is
defaulted with `setdefault`, not forced to `False`. -/
theorem C7_save_output_not_forced_counterexample :
    (extract_features (fun _ => 0) "lsst"
        ⟨"WaveletFeatures", fun kw => ⟨[kw], []⟩, (0 : Int), 0, 0⟩
        (some "/c") Option.none [("save_output", PyVal.bool true)] ⟨[], []⟩).map
      (fun r => r.features.rows) =
    some [[("save_output", PyVal.bool true)]] := by
  decide

/-- C8 counterexample: for path `sims/LSST_MODEL1/F_HEAD.FITS` the
parsed model number is 1, and the stored label is the value of the
column at POSITION 1 (`ALPHA`), while a lookup by column NAME `'1'`
finds nothing — the label column is selected by position, not by
name as the claim states. -/
theorem C8_positional_not_name_counterexample :
    typeLabel "sims/LSST_MODEL1/F_HEAD.FITS"
        [("SNID", PyVal.int 7), ("ALPHA", PyVal.int 10), ("BETA", PyVal.int 20)] =
      some (PyVal.int 10) ∧
    typeLabelByName "sims/LSST_MODEL1/F_HEAD.FITS"
        [("SNID", PyVal.int 7), ("ALPHA", PyVal.int 10), ("BETA", PyVal.int 20)] =
      Option.none := by
  exact ⟨by decide, by decide⟩

/-- C9 counterexample: an explicitly passed but empty `file_prefix` is
falsy, so `get_cache_prefix` is still consulted and the effective
prefix varies with the semantically relevant keyword arguments,
contrary to the claim that any explicitly passed `file_prefix`
determines the paths by itself. -/
theorem C9_empty_prefix_counterexample :
    effectivePre strCode "lsst" "wavelets" (some "") [("a", PyVal.int 1)] =
      get_cache_prefix strCode "lsst" "wavelets" [("a", PyVal.int 1)] ∧
    effectivePre strCode "lsst" "wavelets" (some "") [("a", PyVal.int 1)] ≠
      effectivePre strCode "lsst" "wavelets" (some "") [("a", PyVal.int 2)] := by
  exact ⟨by decide, by decide⟩

/-- C4: for a 1-based inclusive header range `[s, e]` within the bounds
of the photometry array, the slice `phot_data[s - 1 : e]` built by the
store has length `e - s + 1` and its first element is the raw flat
array's element at 0-based index `s - 1`. -/
theorem C4_slice_correct {R : Type} (phot : List R) (s e : Int)
    (h1 : 1 ≤ s) (h2 : s ≤ e) (h3 : e ≤ (phot.length : Int)) :
    (recordSlice phot s e).length = (e - s + 1).toNat ∧
    (recordSlice phot s e).head? = phot[(s - 1).toNat]? := by
  have hs0 : ¬ (s - 1 < 0) := by omega
  have he0 : ¬ (e < 0) := by omega
  have hsn : min (s - 1).toNat phot.length = (s - 1).toNat := by
    apply min_eq_left; omega
  have hen : min e.toNat phot.length = e.toNat := by
    apply min_eq_left; omega
  have hse : (s - 1).toNat < e.toNat := by omega
  unfold recordSlice pySlice pyNormIdx
  rw [if_neg hs0, if_neg he0, hsn, hen]
  constructor
  · rw [List.length_drop, List.length_take]
    omega
  · rw [List.head?_eq_getElem?, List.getElem?_drop, Nat.add_zero,
      List.getElem?_take, if_pos hse]

/-- C4 witness: the range [2, 4] over a 4-element array yields the
3-element slice starting at the raw element of 0-based index 1. -/
theorem C4_slice_correct_witness :
    ((1 : Int) ≤ 2 ∧ (2 : Int) ≤ 4 ∧ (4 : Int) ≤ (([10, 20, 30, 40] : List Nat).length : Int)) ∧
    ((recordSlice ([10, 20, 30, 40] : List Nat) 2 4).length = ((4 : Int) - 2 + 1).toNat ∧
     (recordSlice ([10, 20, 30, 40] : List Nat) 2 4).head? =
       ([10, 20, 30, 40] : List Nat)[((2 : Int) - 1).toNat]?) :=
  ⟨⟨by decide, by decide, by decide⟩,
   C4_slice_correct [10, 20, 30, 40] 2 4 (by decide) (by decide) (by decide)⟩

/-- C5 as amended: when the header range reaches past the end of the
photometry array (`e` greater than the array length, `s ≥ 1`), the
slicer raises nothing and returns the silently clipped slice from
0-based index `s - 1` to the end of the array. -/
theorem C5_clipped_slice {R : Type} (phot : List R) (s e : Int)
    (h1 : 1 ≤ s) (h2 : (phot.length : Int) < e) :
    recordSlice phot s e = phot.drop (s - 1).toNat ∧
    (recordSlice phot s e).length = phot.length - (s - 1).toNat := by
  have hs0 : ¬ (s - 1 < 0) := by omega
  have he0 : ¬ (e < 0) := by omega
  have hen : min e.toNat phot.length = phot.length := by
    apply min_eq_right; omega
  have hmain : recordSlice phot s e = phot.drop (s - 1).toNat := by
    unfold recordSlice pySlice pyNormIdx
    rw [if_neg hs0, if_neg he0, hen, List.take_length]
    rcases le_or_lt ((s - 1).toNat) phot.length with hle | hlt
    · rw [min_eq_left hle]
    · rw [min_eq_right (le_of_lt hlt), List.drop_length,
        List.drop_eq_nil_of_le (le_of_lt hlt)]
  refine ⟨hmain, ?_⟩
  rw [hmain, List.length_drop]

/-- C5 amended witness: range [2, 5] over a 3-element array returns the
clipped 2-element tail, with no failure. -/
theorem C5_clipped_slice_witness :
    ((1 : Int) ≤ 2 ∧ ((([10, 20, 30] : List Nat).length : Int) < 5)) ∧
    (recordSlice ([10, 20, 30] : List Nat) 2 5 = ([10, 20, 30] : List Nat).drop ((2 : Int) - 1).toNat ∧
     (recordSlice ([10, 20, 30] : List Nat) 2 5).length =
       ([10, 20, 30] : List Nat).length - ((2 : Int) - 1).toNat) :=
  ⟨⟨by decide, by decide⟩, C5_clipped_slice [10, 20, 30] 2 5 (by decide) (by decide)⟩

/-- C6: two keyword-argument mappings whose non-control entries agree
(equal after filtering out `save_chains`, `chain_directory`,
`nprocesses`, `save_output`, `convert_to_binary`, `output_root`, as a
mapping differing only in control-only arguments does) receive the
same fingerprint from `get_cache_prefix`, hence address the same
cache entry. -/
theorem C6_control_args_ignored (h : String → Int) (survey_name method : String)
    (a b : List (String × PyVal)) (hk : keptKwargs a = keptKwargs b) :
    get_cache_prefix h survey_name method a = get_cache_prefix h survey_name method b := by
  unfold get_cache_prefix
  rw [hk]

/-- C6 witness: changing `nprocesses` and adding `save_output` leaves
the fingerprint unchanged. -/
theorem C6_control_args_ignored_witness :
    keptKwargs [("x", PyVal.int 1), ("nprocesses", PyVal.int 4)] =
      keptKwargs [("nprocesses", PyVal.int 8), ("x", PyVal.int 1), ("save_output", PyVal.bool true)] ∧
    get_cache_prefix strCode "lsst" "wavelets" [("x", PyVal.int 1), ("nprocesses", PyVal.int 4)] =
      get_cache_prefix strCode "lsst" "wavelets"
        [("nprocesses", PyVal.int 8), ("x", PyVal.int 1), ("save_output", PyVal.bool true)] :=
  ⟨by decide, C6_control_args_ignored strCode "lsst" "wavelets" _ _ (by decide)⟩

/-- C7 as amended: for a non-parametric feature class,
`extract_features` sets `save_output` to `False` only when the caller
did not supply it (`setdefault`): with `save_output` absent from the
keyword arguments, the arguments handed to the extraction routine
carry `save_output = False`. -/
theorem C7_save_output_defaulted (method : String) (kwargs : List (String × PyVal))
    (h1 : method ≠ "ParametricFeatures")
    (h2 : findEntry "save_output" kwargs = Option.none) :
    findEntry "save_output" (applySaveOutputDefault method kwargs) =
      some (PyVal.bool false) := by
  unfold applySaveOutputDefault setdefault
  rw [if_pos h1, h2]
  simp only [Option.isSome_none, Bool.false_eq_true, if_false]
  exact findEntry_append_single kwargs "save_output" (PyVal.bool false) h2

/-- C7 amended witness: with no caller-supplied `save_output`, the
wavelet family gets `save_output = False`. -/
theorem C7_save_output_defaulted_witness :
    (("WaveletFeatures" : String) ≠ "ParametricFeatures" ∧
     findEntry "save_output" [("x", PyVal.int 1)] = Option.none) ∧
    findEntry "save_output" (applySaveOutputDefault "WaveletFeatures" [("x", PyVal.int 1)]) =
      some (PyVal.bool false) :=
  ⟨⟨by decide, by decide⟩,
   C7_save_output_defaulted "WaveletFeatures" [("x", PyVal.int 1)] (by decide) (by decide)⟩

/-- C8 as amended: the stored `'type'` metadata value is read from the
header column at the integer POSITION parsed from the path segment
following the `MODEL` marker (positional indexing `record[model]`,
not a lookup of a column named by that integer). -/
theorem C8_positional_label (p : String) (record : List (String × PyVal)) (m : Int)
    (hm : modelFromPath p = some m) (h0 : 0 ≤ m) :
    typeLabel p record = (record.get? m.toNat).map Prod.snd := by
  unfold typeLabel pyGetItem
  rw [hm]
  have hneg : ¬ (m < 0) := by omega
  simp only [if_neg hneg, if_pos h0]

/-- C8 amended witness: for a path naming MODEL1, the label is the
value of the column at position 1. -/
theorem C8_positional_label_witness :
    (modelFromPath "sims/LSST_MODEL1/F_HEAD.FITS" = some 1 ∧ (0 : Int) ≤ 1) ∧
    typeLabel "sims/LSST_MODEL1/F_HEAD.FITS"
        [("SNID", PyVal.int 7), ("ALPHA", PyVal.int 10), ("BETA", PyVal.int 20)] =
      (([("SNID", PyVal.int 7), ("ALPHA", PyVal.int 10), ("BETA", PyVal.int 20)].get?
        (1 : Int).toNat).map Prod.snd) :=
  ⟨⟨by decide, by decide⟩,
   C8_positional_label "sims/LSST_MODEL1/F_HEAD.FITS"
     [("SNID", PyVal.int 7), ("ALPHA", PyVal.int 10), ("BETA", PyVal.int 20)] 1
     (by decide) (by decide)⟩

/-- C9 as amended: when the caller passes a truthy (non-empty)
`file_prefix`, the cache-key derivation is bypassed: the effective
prefix equals `file_prefix` itself, independently of the process hash
function, survey, method, and keyword arguments — so two calls with
different semantically relevant arguments but the same truthy
`file_prefix` address the same cache entry. -/
theorem C9_truthy_prefix_bypasses (h1 h2 : String → Int) (s1 s2 m1 m2 : String)
    (p : String) (hp : p ≠ "") (k1 k2 : List (String × PyVal)) :
    effectivePre h1 s1 m1 (some p) k1 = p ∧
    effectivePre h1 s1 m1 (some p) k1 = effectivePre h2 s2 m2 (some p) k2 := by
  refine ⟨?_, ?_⟩ <;> simp [effectivePre, hp]

/-- C9 amended witness: a non-empty `file_prefix` fixes the prefix for
two calls with different hash functions and kwargs. -/
theorem C9_truthy_prefix_bypasses_witness :
    (("mypre" : String) ≠ "") ∧
    (effectivePre strCode "lsst" "wavelets" (some "mypre") [("a", PyVal.int 1)] = "mypre" ∧
     effectivePre strCode "lsst" "wavelets" (some "mypre") [("a", PyVal.int 1)] =
       effectivePre (fun _ => 0) "des" "parametric" (some "mypre") [("a", PyVal.int 2)]) :=
  ⟨by decide,
   C9_truthy_prefix_bypasses strCode (fun _ => 0) "lsst" "des" "wavelets" "parametric"
     "mypre" (by decide) [("a", PyVal.int 1)] [("a", PyVal.int 2)]⟩

/-- C10: with a falsy `cache_dir` (`None` or the empty string),
`extract_features` leaves the filesystem untouched and returns exactly
the table produced by `feature_class.extract_features` on the
(`save_output`-defaulted) keyword arguments — in particular no
keyword-argument metadata is merged into the table. -/
theorem C10_no_cache_passthrough {R A : Type} (h : String → Int) (survey_name : String)
    (fclass : FeatureClass R A) (cacheDir : Option String) ( filePre : Option String)
    (kwargs : List (String × PyVal)) (fs : FS R A)
    (hfalsy : truthyStr cacheDir = false) :
    extract_features h survey_name fclass cacheDir filePre kwargs fs =
      some ⟨fclass.extract (applySaveOutputDefault fclass.name kwargs), fclass, fs, true⟩ := by
  unfold extract_features
  rw [hfalsy]
  simp

theorem truthyStr_some_of_ne (cd : String) (hcd : cd ≠ "") :
    truthyStr (some cd) = true := by
  simp [truthyStr, hcd]

theorem eigenvalPath_ne_eigenvecPath (cd pre : String) :
    eigenvalPath cd pre ≠ eigenvecPath cd pre := by
  intro heq
  unfold eigenvalPath eigenvecPath at heq
  exact absurd (string_append_left_cancel (cd ++ "/features/" ++ pre) _ _ heq) (by decide)

theorem meanPath_ne_eigenvalPath (cd pre : String) :
    meanPath cd pre ≠ eigenvalPath cd pre := by
  intro heq
  unfold meanPath eigenvalPath at heq
  exact absurd (string_append_left_cancel (cd ++ "/features/" ++ pre) _ _ heq) (by decide)

theorem meanPath_ne_eigenvecPath (cd pre : String) :
    meanPath cd pre ≠ eigenvecPath cd pre := by
  intro heq
  unfold meanPath eigenvecPath at heq
  exact absurd (string_append_left_cancel (cd ++ "/features/" ++ pre) _ _ heq) (by decide)

/-- Characterisation of `extract_features` on a cache MISS: the
extractor runs, the metadata-enriched table is returned, and the
filesystem gains the written artifacts. -/
theorem extract_features_miss_eq {R A : Type} (h : String → Int) (sn : String)
    (fclass : FeatureClass R A) (cd : String) ( filePre : Option String)
    (kwargs : List (String × PyVal)) (fs : FS R A)
    (hcd : cd ≠ "")
    (hmiss : findEntry (featPath cd (effectivePre h sn fclass.name filePre
        (applySaveOutputDefault fclass.name kwargs))) fs.tables = Option.none) :
    extract_features h sn fclass (some cd) filePre kwargs fs =
      some ⟨missTable fclass kwargs, fclass, missFS h sn fclass cd filePre kwargs fs, true⟩ := by
  unfold extract_features
  rw [truthyStr_some_of_ne cd hcd, if_neg (by simp : ¬ (true = false))]
  simp only [Option.getD_some]
  rw [hmiss]
  simp [missTable, missFS]

/-- Characterisation of `extract_features` on a cache HIT for a
non-wavelet class: the stored table is returned, nothing runs,
nothing is written. -/
theorem extract_features_hit_other {R A : Type} (h : String → Int) (sn : String)
    (fclass : FeatureClass R A) (cd : String) ( filePre : Option String)
    (kwargs : List (String × PyVal)) (fs : FS R A) (t : Table R)
    (hcd : cd ≠ "")
    (hnw : fclass.name ≠ "WaveletFeatures")
    (hhit : findEntry (featPath cd (effectivePre h sn fclass.name filePre
        (applySaveOutputDefault fclass.name kwargs))) fs.tables = some t) :
    extract_features h sn fclass (some cd) filePre kwargs fs =
      some ⟨t, fclass, fs, false⟩ := by
  unfold extract_features
  rw [truthyStr_some_of_ne cd hcd, if_neg (by simp : ¬ (true = false))]
  simp only [Option.getD_some]
  rw [hhit]
  simp [hnw]

/-- Characterisation of `extract_features` on a cache HIT for the
wavelet class with all three auxiliary arrays present: the stored
table is returned and the arrays are attached to the extractor
object; nothing runs, nothing is written. -/
theorem extract_features_hit_wavelet {R A : Type} (h : String → Int) (sn : String)
    (fclass : FeatureClass R A) (cd : String) ( filePre : Option String)
    (kwargs : List (String × PyVal)) (fs : FS R A) (t : Table R) (ev evec m : A)
    (hcd : cd ≠ "")
    (hw : fclass.name = "WaveletFeatures")
    (hhit : findEntry (featPath cd (effectivePre h sn fclass.name filePre
        (applySaveOutputDefault fclass.name kwargs))) fs.tables = some t)
    (hev : findEntry (eigenvalPath cd (effectivePre h sn fclass.name filePre
        (applySaveOutputDefault fclass.name kwargs))) fs.arrays = some ev)
    (hevec : findEntry (eigenvecPath cd (effectivePre h sn fclass.name filePre
        (applySaveOutputDefault fclass.name kwargs))) fs.arrays = some evec)
    (hm : findEntry (meanPath cd (effectivePre h sn fclass.name filePre
        (applySaveOutputDefault fclass.name kwargs))) fs.arrays = some m) :
    extract_features h sn fclass (some cd) filePre kwargs fs =
      some ⟨t, ⟨fclass.name, fclass.extract, ev, evec, m⟩, fs, false⟩ := by
  unfold extract_features
  rw [truthyStr_some_of_ne cd hcd, if_neg (by simp : ¬ (true = false))]
  simp only [Option.getD_some]
  rw [hhit, hev, hevec, hm]
  simp [hw]

/-- C3: starting from a cache with no entry under the derived features
path, a first `extract_features` call takes the MISS action (runs the
extractor) and a second call with identical arguments takes the HIT
action (does not run the extractor) and returns the same table — the
extraction routine is invoked exactly once across the two calls. -/
theorem C3_cache_round_trip {R A : Type} (h : String → Int) (survey_name : String)
    (fclass : FeatureClass R A) (cd : String) ( filePre : Option String)
    (kwargs : List (String × PyVal)) (fs : FS R A)
    (hcd : cd ≠ "")
    (hmiss : findEntry (featPath cd (effectivePre h survey_name fclass.name filePre
        (applySaveOutputDefault fclass.name kwargs))) fs.tables = Option.none) :
    ∃ r1 r2 : ExtractResult R A,
      extract_features h survey_name fclass (some cd) filePre kwargs fs = some r1 ∧
      extract_features h survey_name fclass (some cd) filePre kwargs r1.fs = some r2 ∧
      r2.features = r1.features ∧ r1.invoked = true ∧ r2.invoked = false := by
  have h1 := extract_features_miss_eq h survey_name fclass cd filePre kwargs fs hcd hmiss
  set pre := effectivePre h survey_name fclass.name filePre
    (applySaveOutputDefault fclass.name kwargs) with hpre
  have hhit2 : findEntry (featPath cd pre)
      (missFS h survey_name fclass cd filePre kwargs fs).tables =
      some (missTable fclass kwargs) := by
    show findEntry (featPath cd pre)
        ((featPath cd pre, missTable fclass kwargs) :: fs.tables) =
        some (missTable fclass kwargs)
    unfold findEntry
    rw [if_pos rfl]
  by_cases hw : fclass.name = "WaveletFeatures"
  · have harr : (missFS h survey_name fclass cd filePre kwargs fs).arrays =
        (meanPath cd pre, fclass.PCA_mean) ::
        (eigenvecPath cd pre, fclass.PCA_eigenvectors) ::
        (eigenvalPath cd pre, fclass.PCA_eigenvals) :: fs.arrays := by
      show (if fclass.name = "WaveletFeatures" then
          (meanPath cd pre, fclass.PCA_mean) ::
          (eigenvecPath cd pre, fclass.PCA_eigenvectors) ::
          (eigenvalPath cd pre, fclass.PCA_eigenvals) :: fs.arrays
        else fs.arrays) = _
      rw [if_pos hw]
    have hev : findEntry (eigenvalPath cd pre)
        (missFS h survey_name fclass cd filePre kwargs fs).arrays =
        some fclass.PCA_eigenvals := by
      rw [harr]
      simp [findEntry, meanPath_ne_eigenvalPath cd pre,
        Ne.symm (eigenvalPath_ne_eigenvecPath cd pre)]
    have hevec : findEntry (eigenvecPath cd pre)
        (missFS h survey_name fclass cd filePre kwargs fs).arrays =
        some fclass.PCA_eigenvectors := by
      rw [harr]
      simp [findEntry, meanPath_ne_eigenvecPath cd pre]
    have hm : findEntry (meanPath cd pre)
        (missFS h survey_name fclass cd filePre kwargs fs).arrays =
        some fclass.PCA_mean := by
      rw [harr]
      simp [findEntry]
    refine ⟨⟨missTable fclass kwargs, fclass,
        missFS h survey_name fclass cd filePre kwargs fs, true⟩,
      ⟨missTable fclass kwargs,
        ⟨fclass.name, fclass.extract, fclass.PCA_eigenvals, fclass.PCA_eigenvectors,
          fclass.PCA_mean⟩,
        missFS h survey_name fclass cd filePre kwargs fs, false⟩,
      h1, ?_, rfl, rfl, rfl⟩
    exact extract_features_hit_wavelet h survey_name fclass cd filePre kwargs
      (missFS h survey_name fclass cd filePre kwargs fs) (missTable fclass kwargs)
      fclass.PCA_eigenvals fclass.PCA_eigenvectors fclass.PCA_mean
      hcd hw hhit2 hev hevec hm
  · refine ⟨⟨missTable fclass kwargs, fclass,
        missFS h survey_name fclass cd filePre kwargs fs, true⟩,
      ⟨missTable fclass kwargs, fclass,
        missFS h survey_name fclass cd filePre kwargs fs, false⟩,
      h1, ?_, rfl, rfl, rfl⟩
    exact extract_features_hit_other h survey_name fclass cd filePre kwargs
      (missFS h survey_name fclass cd filePre kwargs fs) (missTable fclass kwargs)
      hcd hw hhit2

/-- C3 witness: a concrete wavelet extraction against an empty cache —
the first call extracts and writes, the second call loads and does
not extract. -/
theorem C3_cache_round_trip_witness :
    (("/tmp/c" : String) ≠ "" ∧
     findEntry (featPath "/tmp/c" (effectivePre (fun _ => (0 : Int)) "lsst" wavDemo.name
         Option.none (applySaveOutputDefault wavDemo.name [("arg1", PyVal.int 5)])))
       (FS.tables (⟨[], []⟩ : FS Nat Int)) = Option.none) ∧
    (∃ r1 r2 : ExtractResult Nat Int,
      extract_features (fun _ => (0 : Int)) "lsst" wavDemo (some "/tmp/c") Option.none
          [("arg1", PyVal.int 5)] ⟨[], []⟩ = some r1 ∧
      extract_features (fun _ => (0 : Int)) "lsst" wavDemo (some "/tmp/c") Option.none
          [("arg1", PyVal.int 5)] r1.fs = some r2 ∧
      r2.features = r1.features ∧ r1.invoked = true ∧ r2.invoked = false) :=
  ⟨⟨by decide, by decide⟩,
   C3_cache_round_trip (fun _ => (0 : Int)) "lsst" wavDemo "/tmp/c" Option.none
     [("arg1", PyVal.int 5)] ⟨[], []⟩ (by decide) (by decide)⟩

/-- C10 witness: with `cache_dir = None`, the call is a pure
pass-through of the extractor's table with the filesystem unchanged. -/
theorem C10_no_cache_passthrough_witness :
    truthyStr Option.none = false ∧
    extract_features (fun _ => 0) "lsst"
        (⟨"WaveletFeatures", fun kw => ⟨[(5 : Nat)], kw⟩, (0 : Int), 0, 0⟩ : FeatureClass Nat Int)
        Option.none Option.none [("a", PyVal.int 1)] ⟨[], []⟩ =
      some ⟨(⟨"WaveletFeatures", fun kw => ⟨[(5 : Nat)], kw⟩, (0 : Int), 0, 0⟩ :
              FeatureClass Nat Int).extract
              (applySaveOutputDefault
                (⟨"WaveletFeatures", fun kw => ⟨[(5 : Nat)], kw⟩, (0 : Int), 0, 0⟩ :
                  FeatureClass Nat Int).name [("a", PyVal.int 1)]),
            ⟨"WaveletFeatures", fun kw => ⟨[(5 : Nat)], kw⟩, (0 : Int), 0, 0⟩, ⟨[], []⟩, true⟩ :=
  ⟨by decide,
   C10_no_cache_passthrough (fun _ => 0) "lsst"
     ⟨"WaveletFeatures", fun kw => ⟨[(5 : Nat)], kw⟩, (0 : Int), 0, 0⟩
     Option.none Option.none [("a", PyVal.int 1)] ⟨[], []⟩ (by decide)⟩

end MLC
